import Mathlib

/-!
Verification of the client-side media cache of the sora-2-playground
repository.

The core under study is the `MediaCacheService` class (file
`frontend/src/services/cache.ts` in the repository): an IndexedDB-backed
key-value cache for media blobs, exposing `get`, `set`, `has`, `delete`,
`clear` and `getStats`, plus the `downloadVideo` cache-first wrapper in
`SoraApiService` (`frontend/src/services/api.ts`).

Modelling conventions
=====================

* A blob is its byte content, `List Nat`; `Blob.size` is its length,
  matching the JS `Blob.size` used by `getStats`.
* The IndexedDB object store (keyPath `id`) is a list of `CachedMedia`
  records; `put` replaces any record with the same key, `get` looks a
  record up by key, `delete` removes by key, `clear` empties the store,
  `getAll` returns all records.
* Possible misbehaviour of the storage engine is captured by an
  `EngineBehaviour`: whether `indexedDB.open` errors, and whether the
  individual `put` / `get` / `delete` / `clear` / `getAll` requests fire
  `onerror` instead of `onsuccess` (`deleteFails` is per key so that
  independent per-variant failures can be expressed).
* Every `async` method is a state transformer
  `EngineBehaviour → CacheState → Except Unit α × CacheState`:
  `Except.ok a` models the returned promise resolving with `a`,
  `Except.error ()` models it rejecting.  A JavaScript subtlety is
  modelled faithfully: inside `try { ... } catch`, `await p` of a
  rejecting promise IS caught, but `return p` of a rejecting promise is
  NOT caught — the async function's promise adopts `p` and the rejection
  reaches the caller after the `try` block has already exited.
* `init`'s single-flight promise logic is modelled separately
  (`InitModel`), exploiting that the section of `init()` from the
  `this.db` check to the assignment of `this.initPromise` is synchronous
  JavaScript and hence atomic with respect to other callers.
-/

/-- The closed variant enum `'video' | 'thumbnail' | 'spritesheet'`. -/
inductive Variant where
  | video
  | thumbnail
  | spritesheet
deriving DecidableEq, Repr

/-- The string value of the TS union member, as interpolated into keys. -/
def Variant.name : Variant → String
  | .video => "video"
  | .thumbnail => "thumbnail"
  | .spritesheet => "spritesheet"

/-- A binary blob: its byte content.  `size` below matches JS `Blob.size`. -/
structure Blob where
  bytes : List Nat
deriving DecidableEq, Repr

/-- JS `Blob.size` (byte count). -/
def Blob.size (b : Blob) : Nat := b.bytes.length

/-- The `CachedMedia` record persisted in the object store. -/
structure CachedMedia where
  id : String
  variant : Variant
  blob : Blob
  cachedAt : Nat
deriving DecidableEq, Repr

/-- The IndexedDB object store `media` (keyPath `id`). -/
abbrev MediaStore := List CachedMedia

/-- IDB `store.get k`: the record whose key equals `k`, if any. -/
def getEntry (s : MediaStore) (k : String) : Option CachedMedia :=
  List.find? (fun e => e.id == k) s

/-- IDB `store.delete k`: remove the record with key `k` (no-op if absent). -/
def deleteEntry (s : MediaStore) (k : String) : MediaStore :=
  List.filter (fun e => !(e.id == k)) s

/-- IDB `store.put e`: insert `e`, replacing any record with the same key. -/
def putEntry (s : MediaStore) (e : CachedMedia) : MediaStore :=
  deleteEntry s e.id ++ [e]

/-- Which storage-engine requests fail.  `deleteFails` is per key so that
failures of the per-variant deletes in the fan-out `delete` can be
independent of one another. -/
structure EngineBehaviour where
  openFails : Bool
  putFails : Bool
  readFails : Bool
  deleteFails : String → Bool
  clearFails : Bool
  getAllFails : Bool

/-- The mutable state of `MediaCacheService` together with the persistent
store: `conn` is `this.db !== null`, `store` the object store contents. -/
structure CacheState where
  conn : Bool
  store : MediaStore

/-- A fresh session over an empty persistent store. -/
def CacheState.fresh : CacheState := { conn := false, store := [] }

/-- `MediaCacheService.getCacheKey`:  `` `${videoId}-${variant}` ``. -/
def getCacheKey (videoId : String) (variant : Variant) : String :=
  videoId ++ "-" ++ variant.name

/-- `await this.init()` as observed by the calling operation: if the
connection exists, nothing happens; otherwise opening either fails (the
awaited promise rejects, `Except.error`) or establishes the connection. -/
def initOp (b : EngineBehaviour) (s : CacheState) : Except Unit CacheState :=
  if s.conn then Except.ok s
  else if b.openFails then Except.error ()
  else Except.ok { s with conn := true }

/-- `MediaCacheService.set(videoId, variant, blob)`.  The `catch` swallows
a rejection of `await this.init()` and the `if (!this.db) throw`, but NOT a
rejection of the returned `new Promise` wrapping `store.put` — that
rejection is adopted by the async function's own promise. -/
def setOp (b : EngineBehaviour) (s : CacheState) (videoId : String)
    (variant : Variant) (blob : Blob) (now : Nat) :
    Except Unit Unit × CacheState :=
  match initOp b s with
  | Except.error () => (Except.ok (), s)
  | Except.ok s1 =>
    if !s1.conn then (Except.ok (), s1)
    else
      let cachedMedia : CachedMedia :=
        { id := getCacheKey videoId variant, variant := variant,
          blob := blob, cachedAt := now }
      if b.putFails then (Except.error (), s1)
      else (Except.ok (), { s1 with store := putEntry s1.store cachedMedia })

/-- `MediaCacheService.get(videoId, variant)`.  The executor of the
returned promise only ever calls `resolve`: `onerror` resolves `null`, a
missing record resolves `null`, a found record resolves its blob; a
rejection of `await this.init()` is caught and `null` returned. -/
def getOp (b : EngineBehaviour) (s : CacheState) (videoId : String)
    (variant : Variant) : Except Unit (Option Blob) × CacheState :=
  match initOp b s with
  | Except.error () => (Except.ok none, s)
  | Except.ok s1 =>
    if !s1.conn then (Except.ok none, s1)
    else if b.readFails then (Except.ok none, s1)
    else
      match getEntry s1.store (getCacheKey videoId variant) with
      | some e => (Except.ok (some e.blob), s1)
      | none => (Except.ok none, s1)

/-- `MediaCacheService.has(videoId, variant)`:
`const blob = await this.get(...); return blob !== null;` (no try/catch of
its own, so a rejection of `get` would propagate). -/
def hasOp (b : EngineBehaviour) (s : CacheState) (videoId : String)
    (variant : Variant) : Except Unit Bool × CacheState :=
  match getOp b s videoId variant with
  | (Except.error (), s1) => (Except.error (), s1)
  | (Except.ok blob, s1) => (Except.ok (blob != none), s1)

/-- The `if (variant)` branch of `MediaCacheService.delete`, with the
surrounding try/catch: a rejection of `await this.init()` is caught, but
the returned `new Promise` wrapping `store.delete` rejects uncaught when
the request errors. -/
def deleteVariantOp (b : EngineBehaviour) (s : CacheState) (videoId : String)
    (variant : Variant) : Except Unit Unit × CacheState :=
  match initOp b s with
  | Except.error () => (Except.ok (), s)
  | Except.ok s1 =>
    if !s1.conn then (Except.ok (), s1)
    else
      let cacheKey := getCacheKey videoId variant
      if b.deleteFails cacheKey then (Except.error (), s1)
      else (Except.ok (), { s1 with store := deleteEntry s1.store cacheKey })

/-- The variant-omitted branch of `MediaCacheService.delete`:
`await Promise.all([delete(id,'video'), delete(id,'thumbnail'),
delete(id,'spritesheet')])`.  All three recursive calls are started (their
effects happen regardless of each other's outcome) and the rejection of
`Promise.all`, being awaited inside `try`, is caught — so this branch
always resolves. -/
def deleteAllOp (b : EngineBehaviour) (s : CacheState) (videoId : String) :
    Except Unit Unit × CacheState :=
  match initOp b s with
  | Except.error () => (Except.ok (), s)
  | Except.ok s1 =>
    if !s1.conn then (Except.ok (), s1)
    else
      let r1 := deleteVariantOp b s1 videoId Variant.video
      let r2 := deleteVariantOp b r1.snd videoId Variant.thumbnail
      let r3 := deleteVariantOp b r2.snd videoId Variant.spritesheet
      (Except.ok (), r3.snd)

/-- `MediaCacheService.clear()`: same try/catch shape as `set` — the
rejection of the returned `new Promise` wrapping `store.clear` is NOT
caught. -/
def clearOp (b : EngineBehaviour) (s : CacheState) :
    Except Unit Unit × CacheState :=
  match initOp b s with
  | Except.error () => (Except.ok (), s)
  | Except.ok s1 =>
    if !s1.conn then (Except.ok (), s1)
    else if b.clearFails then (Except.error (), s1)
    else (Except.ok (), { s1 with store := [] })

/-- The `{ count, size }` record returned by `getStats`. -/
structure CacheStats where
  count : Nat
  size : Nat
deriving DecidableEq, Repr

/-- `MediaCacheService.getStats()`: `getAll`, then count the items and sum
their `blob.size`.  The executor only ever calls `resolve` (`onerror`
resolves `{0,0}`), and init failure is caught returning `{0,0}`. -/
def getStatsOp (b : EngineBehaviour) (s : CacheState) :
    Except Unit CacheStats × CacheState :=
  match initOp b s with
  | Except.error () => (Except.ok { count := 0, size := 0 }, s)
  | Except.ok s1 =>
    if !s1.conn then (Except.ok { count := 0, size := 0 }, s1)
    else if b.getAllFails then (Except.ok { count := 0, size := 0 }, s1)
    else
      (Except.ok
        { count := s1.store.length,
          size := (s1.store.map (fun e => e.blob.size)).sum }, s1)

/-- `SoraApiService.downloadVideo(videoId, variant)` from `api.ts`:
check the cache first; on a truthy cached blob return it with no network
request; on a miss fetch from the API (`network` gives the fetched bytes),
`await set(...)` (whose rejection would propagate), and return the fetched
blob.  The final `Bool` records whether a network fetch was performed. -/
def downloadVideo (b : EngineBehaviour) (network : String → Variant → Blob)
    (s : CacheState) (videoId : String) (variant : Variant) (now : Nat) :
    Except Unit Blob × CacheState × Bool :=
  match getOp b s videoId variant with
  | (Except.error (), s1) => (Except.error (), s1, false)
  | (Except.ok (some cachedBlob), s1) => (Except.ok cachedBlob, s1, false)
  | (Except.ok none, s1) =>
    let blob := network videoId variant
    match setOp b s1 videoId variant blob now with
    | (Except.ok (), s2) => (Except.ok blob, s2, true)
    | (Except.error (), s2) => (Except.error (), s2, true)

/-- State for the single-flight initialization logic of `init()`:
`db` is `this.db !== null`, `initPromise` holds the identity of the
in-flight (or settled) initialization promise, `openCalls` counts the
invocations of `indexedDB.open` (each of which runs the one-time schema
setup at most once, via `onupgradeneeded`). -/
structure InitModel where
  db : Bool
  initPromise : Option Nat
  openCalls : Nat
deriving DecidableEq, Repr

/-- One call to `init()` (its synchronous prefix, which is atomic in the
single-threaded JS model): if `this.db` is set, return at once awaiting
nothing; if `this.initPromise` exists, return it; otherwise open the
database — creating a new promise, whose identity is returned — and store
it in `this.initPromise`.  The second component is the promise the caller
awaits (`none` = returned without awaiting any initialization). -/
def initCall (m : InitModel) : InitModel × Option Nat :=
  if m.db then (m, none)
  else
    match m.initPromise with
    | some p => (m, some p)
    | none =>
      ({ db := m.db, initPromise := some m.openCalls,
         openCalls := m.openCalls + 1 }, some m.openCalls)

/-- `n` back-to-back calls to `init()` (no resolution in between, i.e. all
callers arrive before the open completes), collecting the promise each
caller awaits. -/
def initCalls : Nat → InitModel → InitModel × List (Option Nat)
  | 0, m => (m, [])
  | n + 1, m =>
    let r := initCall m
    let rest := initCalls n r.fst
    (rest.fst, r.snd :: rest.snd)

/-- The fresh service: `this.db = null`, `this.initPromise = null`. -/
def InitModel.fresh : InitModel :=
  { db := false, initPromise := none, openCalls := 0 }

/-! ## Helper lemmas about the object store -/

theorem find?_filter_of_imp {α : Type} (p q : α → Bool) (l : List α)
    (h : ∀ x, p x = true → q x = true) :
    (l.filter q).find? p = l.find? p := by
  induction l with
  | nil => rfl
  | cons a l ih =>
    by_cases hq : q a = true
    · rw [List.filter_cons_of_pos hq]
      by_cases hp : p a = true
      · rw [List.find?_cons_of_pos _ hp, List.find?_cons_of_pos _ hp]
      · rw [List.find?_cons_of_neg _ (by simp_all),
            List.find?_cons_of_neg _ (by simp_all), ih]
    · have hp : p a = false := by
        by_contra hc
        exact hq (h a (by simp_all))
      rw [List.filter_cons_of_neg (by simp_all),
          List.find?_cons_of_neg _ (by simp [hp]), ih]

theorem getEntry_putEntry_same (s : MediaStore) (e : CachedMedia) :
    getEntry (putEntry s e) e.id = some e := by
  unfold getEntry putEntry deleteEntry
  rw [List.find?_append]
  have h1 : (List.filter (fun x => !(x.id == e.id)) s).find?
      (fun x => x.id == e.id) = none := by
    rw [List.find?_eq_none]
    intro x hx
    have := List.of_mem_filter hx
    simp_all
  rw [h1]
  simp

theorem getEntry_putEntry_ne (s : MediaStore) (e : CachedMedia) (k : String)
    (h : k ≠ e.id) : getEntry (putEntry s e) k = getEntry s k := by
  unfold getEntry putEntry deleteEntry
  rw [List.find?_append]
  have hne : (e.id == k) = false :=
    beq_eq_false_iff_ne.mpr (fun hc => h hc.symm)
  have h2 : List.find? (fun x => x.id == k) [e] = none := by
    simp [List.find?, hne]
  rw [h2, find?_filter_of_imp]
  · simp
  · intro x hx
    have hxk : x.id = k := eq_of_beq hx
    have : (x.id == e.id) = false :=
      beq_eq_false_iff_ne.mpr (by rw [hxk]; exact h)
    simp [this]

theorem getEntry_deleteEntry_same (s : MediaStore) (k : String) :
    getEntry (deleteEntry s k) k = none := by
  unfold getEntry deleteEntry
  rw [List.find?_eq_none]
  intro x hx
  have := List.of_mem_filter hx
  simp_all

theorem getEntry_deleteEntry_ne (s : MediaStore) (k k' : String)
    (h : k' ≠ k) : getEntry (deleteEntry s k) k' = getEntry s k' := by
  unfold getEntry deleteEntry
  rw [find?_filter_of_imp]
  intro x hx
  have hxk : x.id = k' := eq_of_beq hx
  have : (x.id == k) = false :=
    beq_eq_false_iff_ne.mpr (by rw [hxk]; exact h)
  simp [this]

/-! ## Helper lemmas about cache keys -/

theorem getCacheKey_lastChar (id : String) (v : Variant) :
    (getCacheKey id v).data.getLast? = v.name.data.getLast? := by
  have h1 : (getCacheKey id v).data = id.data ++ ("-" ++ v.name).data := by
    rw [getCacheKey, String.append_assoc, String.data_append]
  rw [h1, List.getLast?_append_of_ne_nil]
  · cases v <;> rfl
  · cases v <;> simp [Variant.name, String.data_append]

theorem getCacheKey_inj {id1 id2 : String} {v1 v2 : Variant}
    (h : getCacheKey id1 v1 = getCacheKey id2 v2) : id1 = id2 ∧ v1 = v2 := by
  have hv : v1 = v2 := by
    have hl := congrArg (fun s => s.data.getLast?) h
    simp only [] at hl
    rw [getCacheKey_lastChar, getCacheKey_lastChar] at hl
    cases v1 <;> cases v2 <;> first
      | rfl
      | exact absurd hl (by decide)
  subst hv
  refine ⟨?_, rfl⟩
  have hd := congrArg String.data h
  simp only [getCacheKey, String.data_append] at hd
  exact String.ext (List.append_cancel_right (List.append_cancel_right hd))

/-! ## Characterizations of the operations under specific conditions -/

theorem initOp_ok (b : EngineBehaviour) (s : CacheState)
    (h : s.conn = true ∨ b.openFails = false) :
    initOp b s = Except.ok { conn := true, store := s.store } := by
  cases s with
  | mk c st =>
    unfold initOp
    rcases h with h | h
    · simp_all
    · by_cases hc : c <;> simp_all

theorem setOp_ok (b : EngineBehaviour) (s : CacheState) (id : String)
    (v : Variant) (blob : Blob) (now : Nat)
    (h : s.conn = true ∨ b.openFails = false) (hput : b.putFails = false) :
    setOp b s id v blob now =
      (Except.ok (),
       { conn := true,
         store := putEntry s.store
           { id := getCacheKey id v, variant := v, blob := blob,
             cachedAt := now } }) := by
  unfold setOp
  rw [initOp_ok b s h]
  simp [hput]

theorem getOp_ok (b : EngineBehaviour) (s : CacheState) (id : String)
    (v : Variant) (h : s.conn = true ∨ b.openFails = false)
    (hread : b.readFails = false) :
    getOp b s id v =
      (Except.ok ((getEntry s.store (getCacheKey id v)).map (fun e => e.blob)),
       { conn := true, store := s.store }) := by
  unfold getOp
  rw [initOp_ok b s h]
  cases hg : getEntry s.store (getCacheKey id v) <;> simp [hread, hg]

theorem getOp_resolves (b : EngineBehaviour) (s : CacheState) (id : String)
    (v : Variant) : ∃ r, (getOp b s id v).fst = Except.ok r := by
  unfold getOp
  cases hi : initOp b s with
  | error u => exact ⟨none, rfl⟩
  | ok s1 =>
    by_cases hc : s1.conn
    · by_cases hr : b.readFails
      · exact ⟨none, by simp [hc, hr]⟩
      · cases hg : getEntry s1.store (getCacheKey id v) with
        | none => exact ⟨none, by simp [hc, hr, hg]⟩
        | some e => exact ⟨some e.blob, by simp [hc, hr, hg]⟩
    · exact ⟨none, by simp [hc]⟩

theorem getOp_store_unchanged (b : EngineBehaviour) (s : CacheState)
    (id : String) (v : Variant) :
    (getOp b s id v).snd.store = s.store := by
  unfold getOp
  cases hi : initOp b s with
  | error u => rfl
  | ok s1 =>
    have hs1 : s1.store = s.store := by
      unfold initOp at hi
      by_cases hc : s.conn
      · simp [hc] at hi; rw [← hi]
      · by_cases ho : b.openFails
        · simp [hc, ho] at hi
        · simp [hc, ho] at hi; rw [← hi]
    by_cases hc : s1.conn
    · by_cases hr : b.readFails
      · simpa [hc, hr]
      · cases hg : getEntry s1.store (getCacheKey id v) <;> simpa [hc, hr, hg]
    · simpa [hc]

theorem getOp_fst_char (b : EngineBehaviour) (s : CacheState) (id : String)
    (v : Variant) :
    (getOp b s id v).fst = Except.ok
      (if ((s.conn || !b.openFails) && !b.readFails) = true
       then (getEntry s.store (getCacheKey id v)).map (fun e => e.blob)
       else none) := by
  cases s with
  | mk c st =>
    unfold getOp initOp
    by_cases hc : c <;> by_cases ho : b.openFails <;>
      by_cases hr : b.readFails <;>
        cases hg : getEntry st (getCacheKey id v) <;>
          simp [hc, ho, hr, hg]

theorem setOp_snd_initfail (b : EngineBehaviour) (s : CacheState)
    (id : String) (v : Variant) (blob : Blob) (now : Nat)
    (hc : s.conn = false) (ho : b.openFails = true) :
    setOp b s id v blob now = (Except.ok (), s) := by
  unfold setOp initOp
  simp [hc, ho]

theorem setOp_putfail (b : EngineBehaviour) (s : CacheState)
    (id : String) (v : Variant) (blob : Blob) (now : Nat)
    (h : s.conn = true ∨ b.openFails = false) (hput : b.putFails = true) :
    setOp b s id v blob now =
      (Except.error (), { conn := true, store := s.store }) := by
  unfold setOp
  rw [initOp_ok b s h]
  simp [hput]

theorem setOp_resolves_of_putok (b : EngineBehaviour) (s : CacheState)
    (id : String) (v : Variant) (blob : Blob) (now : Nat)
    (hput : b.putFails = false) :
    (setOp b s id v blob now).fst = Except.ok () := by
  unfold setOp
  cases hi : initOp b s with
  | error u => rfl
  | ok s1 => by_cases hc : s1.conn <;> simp [hc, hput]

theorem getStatsOp_ok (b : EngineBehaviour) (s : CacheState)
    (h : s.conn = true ∨ b.openFails = false) (hg : b.getAllFails = false) :
    (getStatsOp b s).fst = Except.ok
      { count := s.store.length,
        size := (s.store.map (fun e => e.blob.size)).sum } := by
  unfold getStatsOp
  rw [initOp_ok b s h]
  simp [hg]

theorem clearOp_ok (b : EngineBehaviour) (s : CacheState)
    (h : s.conn = true ∨ b.openFails = false) (hclear : b.clearFails = false) :
    clearOp b s = (Except.ok (), { conn := true, store := [] }) := by
  unfold clearOp
  rw [initOp_ok b s h]
  simp [hclear]

theorem deleteVariantOp_snd_conn (b : EngineBehaviour) (s : CacheState)
    (id : String) (v : Variant) (h : s.conn = true) :
    (deleteVariantOp b s id v).snd =
      { conn := true,
        store := if b.deleteFails (getCacheKey id v) = true then s.store
                 else deleteEntry s.store (getCacheKey id v) } := by
  unfold deleteVariantOp
  rw [initOp_ok b s (Or.inl h)]
  by_cases hd : b.deleteFails (getCacheKey id v) <;> simp [hd]

theorem deleteAllOp_resolves (b : EngineBehaviour) (s : CacheState)
    (id : String) : (deleteAllOp b s id).fst = Except.ok () := by
  unfold deleteAllOp
  cases hi : initOp b s with
  | error u => rfl
  | ok s1 => by_cases hc : s1.conn <;> simp [hc]

theorem deleteEntry_of_getEntry_none (s : MediaStore) (k : String)
    (h : getEntry s k = none) : deleteEntry s k = s := by
  unfold getEntry at h
  rw [List.find?_eq_none] at h
  unfold deleteEntry
  rw [List.filter_eq_self]
  intro x hx
  simp [h x hx]

theorem deleteEntry_deleteEntry (s : MediaStore) (k : String) :
    deleteEntry (deleteEntry s k) k = deleteEntry s k := by
  unfold deleteEntry
  rw [List.filter_filter]
  simp

theorem putEntry_putEntry_same (s : MediaStore) (eA eB : CachedMedia)
    (h : eA.id = eB.id) :
    putEntry (putEntry s eA) eB = deleteEntry s eB.id ++ [eB] := by
  unfold putEntry
  rw [← h]
  unfold deleteEntry
  rw [List.filter_append, List.filter_filter]
  simp

theorem filter_key_deleteEntry (s : MediaStore) (k : String) :
    List.filter (fun e => e.id == k) (deleteEntry s k) = [] := by
  unfold deleteEntry
  rw [List.filter_filter]
  simp
-- appended test: deleteAllOp_snd
def condDeleteKey (b : EngineBehaviour) (st : MediaStore) (k : String) :
    MediaStore :=
  if b.deleteFails k = true then st else deleteEntry st k

theorem deleteVariantOp_snd_cond (b : EngineBehaviour) (s : CacheState)
    (id : String) (v : Variant) (h : s.conn = true) :
    (deleteVariantOp b s id v).snd =
      { conn := true, store := condDeleteKey b s.store (getCacheKey id v) } := by
  rw [deleteVariantOp_snd_conn b s id v h]
  rfl

theorem deleteAllOp_snd (b : EngineBehaviour) (s : CacheState) (id : String)
    (hinit : s.conn = true ∨ b.openFails = false) :
    (deleteAllOp b s id).snd =
      { conn := true,
        store := condDeleteKey b (condDeleteKey b (condDeleteKey b s.store
          (getCacheKey id Variant.video)) (getCacheKey id Variant.thumbnail))
          (getCacheKey id Variant.spritesheet) } := by
  unfold deleteAllOp
  rw [initOp_ok b s hinit]
  simp only [Bool.not_true, if_false]
  rw [deleteVariantOp_snd_cond b { conn := true, store := s.store } id
        Variant.video rfl,
      deleteVariantOp_snd_cond b _ id Variant.thumbnail rfl,
      deleteVariantOp_snd_cond b _ id Variant.spritesheet rfl]
  rfl

theorem getEntry_condDeleteKey_ne (b : EngineBehaviour) (st : MediaStore)
    (k k' : String) (h : k' ≠ k) :
    getEntry (condDeleteKey b st k) k' = getEntry st k' := by
  unfold condDeleteKey
  by_cases hd : b.deleteFails k = true
  · rw [if_pos hd]
  · rw [if_neg hd, getEntry_deleteEntry_ne st k k' h]

theorem getEntry_condDeleteKey_same (b : EngineBehaviour) (st : MediaStore)
    (k : String) (h : b.deleteFails k = false) :
    getEntry (condDeleteKey b st k) k = none := by
  unfold condDeleteKey
  rw [if_neg (by simp [h]), getEntry_deleteEntry_same]

/-- One call to `set`, as issued by a caller: its arguments. -/
structure WriteReq where
  videoId : String
  variant : Variant
  blob : Blob
  now : Nat

/-- The composite key the write lands under. -/
def WriteReq.key (w : WriteReq) : String := getCacheKey w.videoId w.variant

/-- The `CachedMedia` record the write produces. -/
def WriteReq.entry (w : WriteReq) : CachedMedia :=
  { id := w.key, variant := w.variant, blob := w.blob, cachedAt := w.now }

/-- Run a sequence of `set` calls back to back. -/
def runSets (b : EngineBehaviour) (s : CacheState) : List WriteReq → CacheState
  | [] => s
  | w :: ws => runSets b (setOp b s w.videoId w.variant w.blob w.now).snd ws

theorem runSets_store (b : EngineBehaviour) (ws : List WriteReq) :
    ∀ s : CacheState, b.openFails = false → b.putFails = false →
    (∀ w ∈ ws, getEntry s.store w.key = none) →
    (List.map WriteReq.key ws).Nodup →
    (runSets b s ws).store = s.store ++ ws.map WriteReq.entry := by
  induction ws with
  | nil =>
    intro s _ _ _ _
    simp [runSets]
  | cons w ws ih =>
    intro s ho hp hdisj hnodup
    rw [runSets, setOp_ok b s _ _ _ _ (Or.inr ho) hp]
    have hkey : getEntry s.store (WriteReq.entry w).id = none :=
      hdisj w (List.mem_cons_self w ws)
    have hput : putEntry s.store (WriteReq.entry w)
        = s.store ++ [WriteReq.entry w] := by
      unfold putEntry
      rw [deleteEntry_of_getEntry_none s.store _ hkey]
    have hentry :
        ({ id := getCacheKey w.videoId w.variant, variant := w.variant,
           blob := w.blob, cachedAt := w.now } : CachedMedia)
          = WriteReq.entry w := rfl
    rw [hentry, ih { conn := true, store := putEntry s.store (WriteReq.entry w) }
          ho hp ?hdisj ?hnodup]
    · rw [hput, List.map_cons, List.append_assoc]
      rfl
    case hdisj =>
      intro w' hw'
      have hne : w'.key ≠ (WriteReq.entry w).id := by
        intro hc
        have hck : w'.key = w.key := hc
        have hmem : w.key ∈ List.map WriteReq.key ws := by
          rw [← hck]
          exact List.mem_map_of_mem WriteReq.key hw'
        rw [List.map_cons, List.nodup_cons] at hnodup
        exact hnodup.1 hmem
      have h1 : getEntry (putEntry s.store (WriteReq.entry w)) w'.key
          = getEntry s.store w'.key :=
        getEntry_putEntry_ne s.store (WriteReq.entry w) w'.key hne
      rw [h1]
      exact hdisj w' (List.mem_cons_of_mem w hw')
    case hnodup =>
      rw [List.map_cons, List.nodup_cons] at hnodup
      exact hnodup.2

theorem getOp_snd_ok (b : EngineBehaviour) (s : CacheState) (id : String)
    (v : Variant) (h : s.conn = true ∨ b.openFails = false) :
    (getOp b s id v).snd = { conn := true, store := s.store } := by
  unfold getOp
  rw [initOp_ok b s h]
  by_cases hr : b.readFails
  · simp [hr]
  · cases hg : getEntry s.store (getCacheKey id v) <;> simp [hr, hg]

/-! ## Concrete sample data used by the witnesses below -/

/-- An engine on which no request ever fails. -/
def engineOK : EngineBehaviour :=
  { openFails := false, putFails := false, readFails := false,
    deleteFails := fun _ => false, clearFails := false,
    getAllFails := false }

def blobA : Blob := { bytes := [1, 2, 3] }

def blobB : Blob := { bytes := [4, 5] }

def entryA : CachedMedia :=
  { id := getCacheKey "vid_123" Variant.video, variant := Variant.video,
    blob := blobA, cachedAt := 7 }

def stateA : CacheState := { conn := true, store := [entryA] }

/-- An engine whose `put` request errors (open succeeds). -/
def enginePutErr : EngineBehaviour :=
  { openFails := false, putFails := true, readFails := false,
    deleteFails := fun _ => false, clearFails := false,
    getAllFails := false }

/-- An engine whose `delete` requests error (open succeeds). -/
def engineDelErr : EngineBehaviour :=
  { openFails := false, putFails := false, readFails := false,
    deleteFails := fun _ => true, clearFails := false,
    getAllFails := false }

/-- An engine whose `clear` request errors (open succeeds). -/
def engineClearErr : EngineBehaviour :=
  { openFails := false, putFails := false, readFails := false,
    deleteFails := fun _ => false, clearFails := true,
    getAllFails := false }

/-! ## The claims -/

/-- Claim C1 is violated by the code: a storage-layer failure DOES surface
to the caller as a rejection.  With an engine whose open succeeds but
whose `put` (resp. per-variant `delete`, resp. `clear`) request errors,
the promise returned by `set` (resp. `delete(id, variant)`, resp. `clear`)
rejects: each of these methods does `return new Promise(...)` inside
`try { } catch`, and an async function adopts a returned promise only
after the `try` block has exited, so the catch never sees the rejection —
despite the adjacent comments claiming errors are swallowed. -/
theorem storage_failure_rejects_caller :
    (setOp enginePutErr CacheState.fresh "vid_123" Variant.video
        blobA 0).fst = Except.error ()
    ∧ (deleteVariantOp engineDelErr CacheState.fresh "vid_123"
        Variant.video).fst = Except.error ()
    ∧ (clearOp engineClearErr CacheState.fresh).fst = Except.error () :=
  ⟨rfl, rfl, rfl⟩

/-- Claim C2: `get` always resolves, never rejects: it resolves with the
stored blob on a hit, with `null` for a key with no entry in the store,
and with `null` (not an exception) when the engine fails — on open failure
with no established connection, or on a read-request error. -/
theorem get_total_and_absent_on_failure (b : EngineBehaviour)
    (s : CacheState) (id : String) (v : Variant) :
    (∃ r, (getOp b s id v).fst = Except.ok r)
    ∧ (getEntry s.store (getCacheKey id v) = none →
        (getOp b s id v).fst = Except.ok none)
    ∧ ((s.conn = false ∧ b.openFails = true) ∨ b.readFails = true →
        (getOp b s id v).fst = Except.ok none)
    ∧ ((s.conn = true ∨ b.openFails = false) → b.readFails = false →
        ∀ e, getEntry s.store (getCacheKey id v) = some e →
          (getOp b s id v).fst = Except.ok (some e.blob)) := by
  refine ⟨getOp_resolves b s id v, ?_, ?_, ?_⟩
  · intro hnone
    rw [getOp_fst_char, hnone]
    simp
  · intro hfail
    rw [getOp_fst_char]
    rcases hfail with ⟨hc, ho⟩ | hr
    · simp [hc, ho]
    · simp [hr]
  · intro hinit hr e he
    rw [getOp_fst_char, he]
    rcases hinit with hc | ho
    · simp [hc, hr]
    · simp [ho, hr]

/-- Witness for C2: a concrete hit resolves with the stored blob. -/
theorem get_total_and_absent_on_failure_witness :
    (getOp engineOK stateA "vid_123" Variant.video).fst
      = Except.ok (some blobA) :=
  (get_total_and_absent_on_failure engineOK stateA "vid_123"
    Variant.video).2.2.2 (Or.inl rfl) rfl entryA rfl

/-- Claim C3: a successful `set(id, v, blob)` (engine write not failing,
connection available or openable) followed by `get(id, v)` with no
intervening operation resolves with a blob byte-identical to the one
stored. -/
theorem set_then_get_roundtrip (b : EngineBehaviour) (s : CacheState)
    (id : String) (v : Variant) (blob : Blob) (now : Nat)
    (hinit : s.conn = true ∨ b.openFails = false)
    (hput : b.putFails = false) (hread : b.readFails = false) :
    (setOp b s id v blob now).fst = Except.ok ()
    ∧ (getOp b (setOp b s id v blob now).snd id v).fst
        = Except.ok (some blob) := by
  rw [setOp_ok b s id v blob now hinit hput]
  refine ⟨rfl, ?_⟩
  rw [getOp_fst_char]
  have hsame := getEntry_putEntry_same s.store
    { id := getCacheKey id v, variant := v, blob := blob, cachedAt := now }
  simp [hread, hsame]

/-- Witness for C3 on concrete data. -/
theorem set_then_get_roundtrip_witness :
    (setOp engineOK CacheState.fresh "vid_123" Variant.video blobA 7).fst
      = Except.ok ()
    ∧ (getOp engineOK (setOp engineOK CacheState.fresh "vid_123"
        Variant.video blobA 7).snd "vid_123" Variant.video).fst
      = Except.ok (some blobA) :=
  set_then_get_roundtrip engineOK CacheState.fresh "vid_123" Variant.video
    blobA 7 (Or.inr rfl) rfl rfl

/-- Claim C4: writes to the same `(videoId, variant)` are last-write-wins:
after `set(id, v, A)` then `set(id, v, B)` (both succeeding) the store has
exactly one entry under that key, `get(id, v)` resolves with `B`, and
`getStats()` counts that key once and adds only `B.size` — the rest of
the store's count and size are those of the store minus that key. -/
theorem overwrite_last_write_wins (b : EngineBehaviour) (s : CacheState)
    (id : String) (v : Variant) (A B : Blob) (n1 n2 : Nat)
    (hinit : s.conn = true ∨ b.openFails = false)
    (hput : b.putFails = false) (hread : b.readFails = false)
    (hgetall : b.getAllFails = false) :
    (List.filter (fun e => e.id == getCacheKey id v)
        ((setOp b (setOp b s id v A n1).snd id v B n2).snd.store)).length = 1
    ∧ (getOp b (setOp b (setOp b s id v A n1).snd id v B n2).snd id v).fst
        = Except.ok (some B)
    ∧ (getStatsOp b (setOp b (setOp b s id v A n1).snd id v B n2).snd).fst
        = Except.ok
          { count := (deleteEntry s.store (getCacheKey id v)).length + 1,
            size := ((deleteEntry s.store (getCacheKey id v)).map
              (fun e => e.blob.size)).sum + B.size } := by
  rw [setOp_ok b s id v A n1 hinit hput,
      setOp_ok b _ id v B n2 (Or.inl rfl) hput]
  have hpp : putEntry (putEntry s.store
        { id := getCacheKey id v, variant := v, blob := A, cachedAt := n1 })
        { id := getCacheKey id v, variant := v, blob := B, cachedAt := n2 }
      = deleteEntry s.store (getCacheKey id v)
        ++ [{ id := getCacheKey id v, variant := v, blob := B,
              cachedAt := n2 }] :=
    putEntry_putEntry_same _ _ _ rfl
  refine ⟨?_, ?_, ?_⟩
  · dsimp only
    rw [hpp, List.filter_append, filter_key_deleteEntry]
    simp
  · rw [getOp_fst_char]
    have hget := getEntry_putEntry_same
      (putEntry s.store
        { id := getCacheKey id v, variant := v, blob := A, cachedAt := n1 })
      { id := getCacheKey id v, variant := v, blob := B, cachedAt := n2 }
    simp [hread, hget]
  · rw [getStatsOp_ok b _ (Or.inl rfl) hgetall]
    dsimp only
    rw [hpp]
    simp

/-- Witness for C4 on concrete data: overwriting `blobA` with `blobB`. -/
theorem overwrite_last_write_wins_witness :
    (List.filter (fun e => e.id == getCacheKey "vid_123" Variant.video)
        ((setOp engineOK (setOp engineOK CacheState.fresh "vid_123"
          Variant.video blobA 1).snd "vid_123" Variant.video
          blobB 2).snd.store)).length = 1 :=
  (overwrite_last_write_wins engineOK CacheState.fresh "vid_123"
    Variant.video blobA blobB 1 2 (Or.inr rfl) rfl rfl rfl).1

/-- Claim C5: distinct `(videoId, variant)` pairs map to distinct composite
keys under `getCacheKey`, and consequently a `set` under one pair leaves
the result of `get` under any other pair unchanged — for EVERY engine
behaviour, including failing ones. -/
theorem distinct_keys_isolated (b : EngineBehaviour) (s : CacheState)
    (id1 id2 : String) (v1 v2 : Variant) (blob : Blob) (now : Nat)
    (h : ¬(id1 = id2 ∧ v1 = v2)) :
    getCacheKey id1 v1 ≠ getCacheKey id2 v2
    ∧ (getOp b (setOp b s id1 v1 blob now).snd id2 v2).fst
        = (getOp b s id2 v2).fst := by
  have hkey : getCacheKey id1 v1 ≠ getCacheKey id2 v2 :=
    fun hc => h (getCacheKey_inj hc)
  refine ⟨hkey, ?_⟩
  by_cases hio : s.conn = false ∧ b.openFails = true
  · rw [setOp_snd_initfail b s id1 v1 blob now hio.1 hio.2]
  · have hinit : s.conn = true ∨ b.openFails = false := by
      by_cases hc : s.conn = true
      · exact Or.inl hc
      · right
        by_contra ho
        exact hio ⟨by simpa using hc, by simpa using ho⟩
    by_cases hput : b.putFails = true
    · rw [setOp_putfail b s id1 v1 blob now hinit hput,
          getOp_fst_char, getOp_fst_char]
      rcases hinit with hc | ho
      · simp [hc]
      · simp [ho]
    · rw [setOp_ok b s id1 v1 blob now hinit (by simpa using hput),
          getOp_fst_char, getOp_fst_char]
      have hgg : getEntry (putEntry s.store
          { id := getCacheKey id1 v1, variant := v1, blob := blob,
            cachedAt := now }) (getCacheKey id2 v2)
          = getEntry s.store (getCacheKey id2 v2) :=
        getEntry_putEntry_ne s.store _ _ (Ne.symm hkey)
      rcases hinit with hc | ho
      · simp [hc, hgg]
      · simp [ho, hgg]

/-- Witness for C5: writing a thumbnail does not disturb reading the video
variant of the same resource. -/
theorem distinct_keys_isolated_witness :
    getCacheKey "vid_123" Variant.thumbnail ≠ getCacheKey "vid_123" Variant.video
    ∧ (getOp engineOK (setOp engineOK stateA "vid_123" Variant.thumbnail
        blobB 8).snd "vid_123" Variant.video).fst
      = (getOp engineOK stateA "vid_123" Variant.video).fst :=
  distinct_keys_isolated engineOK stateA "vid_123" "vid_123"
    Variant.thumbnail Variant.video blobB 8 (by simp)

/-- Claim C6: `delete(videoId)` with the variant omitted always resolves,
issues the three per-variant deletes independently — any variant whose
engine delete does not fail ends up absent, regardless of the other
variants' failures — and when all three succeed, `get` resolves absent
for every variant of that resource. -/
theorem delete_fanout (b : EngineBehaviour) (s : CacheState) (id : String)
    (hinit : s.conn = true ∨ b.openFails = false) :
    (deleteAllOp b s id).fst = Except.ok ()
    ∧ (∀ v : Variant, b.deleteFails (getCacheKey id v) = false →
        getEntry (deleteAllOp b s id).snd.store (getCacheKey id v) = none)
    ∧ ((∀ v : Variant, b.deleteFails (getCacheKey id v) = false) →
        ∀ v : Variant, (getOp b (deleteAllOp b s id).snd id v).fst
          = Except.ok none) := by
  have hkey_ne : ∀ v1 v2 : Variant, v1 ≠ v2 →
      getCacheKey id v1 ≠ getCacheKey id v2 :=
    fun v1 v2 hv hc => hv (getCacheKey_inj hc).2
  have habsent : ∀ v : Variant, b.deleteFails (getCacheKey id v) = false →
      getEntry (deleteAllOp b s id).snd.store (getCacheKey id v) = none := by
    intro v hv
    rw [deleteAllOp_snd b s id hinit]
    cases v with
    | video =>
      rw [getEntry_condDeleteKey_ne b _ _ _
            (hkey_ne Variant.video Variant.spritesheet (by decide)),
          getEntry_condDeleteKey_ne b _ _ _
            (hkey_ne Variant.video Variant.thumbnail (by decide)),
          getEntry_condDeleteKey_same b _ _ hv]
    | thumbnail =>
      rw [getEntry_condDeleteKey_ne b _ _ _
            (hkey_ne Variant.thumbnail Variant.spritesheet (by decide)),
          getEntry_condDeleteKey_same b _ _ hv]
    | spritesheet =>
      rw [getEntry_condDeleteKey_same b _ _ hv]
  refine ⟨deleteAllOp_resolves b s id, habsent, ?_⟩
  intro hall v
  rw [getOp_fst_char, habsent v (hall v)]
  simp

/-- Witness for C6: deleting everything for a resource with one cached
entry, then reading the video variant, resolves absent. -/
theorem delete_fanout_witness :
    (deleteAllOp engineOK stateA "vid_123").fst = Except.ok ()
    ∧ (getOp engineOK (deleteAllOp engineOK stateA "vid_123").snd
        "vid_123" Variant.video).fst = Except.ok none :=
  ⟨(delete_fanout engineOK stateA "vid_123" (Or.inl rfl)).1,
   (delete_fanout engineOK stateA "vid_123" (Or.inl rfl)).2.2
     (fun _ => rfl) Variant.video⟩

/-- Claim C7: with a non-failing engine, after a sequence of writes to
pairwise-distinct keys starting from an empty store, `getStats` resolves
with exactly the number of writes and the sum of their blob sizes; on the
empty store and after `clear()` it resolves `{0, 0}`; and on an engine
whose `getAll` request errors it resolves `{0, 0}` instead of rejecting —
for every state. -/
theorem stats_accuracy (b : EngineBehaviour) (ws : List WriteReq)
    (ho : b.openFails = false) (hp : b.putFails = false)
    (hga : b.getAllFails = false) (hcl : b.clearFails = false)
    (hnodup : (List.map WriteReq.key ws).Nodup) :
    (getStatsOp b (runSets b CacheState.fresh ws)).fst = Except.ok
      { count := ws.length,
        size := (ws.map (fun w => w.blob.size)).sum }
    ∧ (getStatsOp b CacheState.fresh).fst
        = Except.ok { count := 0, size := 0 }
    ∧ (getStatsOp b (clearOp b (runSets b CacheState.fresh ws)).snd).fst
        = Except.ok { count := 0, size := 0 }
    ∧ (∀ b' : EngineBehaviour, ∀ s' : CacheState, b'.getAllFails = true →
        (getStatsOp b' s').fst = Except.ok { count := 0, size := 0 }) := by
  have hstore : (runSets b CacheState.fresh ws).store
      = ws.map WriteReq.entry := by
    have h := runSets_store b ws CacheState.fresh ho hp
      (fun w _ => rfl) hnodup
    simpa [CacheState.fresh] using h
  refine ⟨?_, ?_, ?_, ?_⟩
  · rw [getStatsOp_ok b _ (Or.inr ho) hga, hstore]
    simp only [List.map_map, List.length_map]
    rfl
  · rw [getStatsOp_ok b _ (Or.inr ho) hga]
    rfl
  · rw [clearOp_ok b _ (Or.inr ho) hcl,
        getStatsOp_ok b _ (Or.inl rfl) hga]
    rfl
  · intro bx sx hgax
    unfold getStatsOp
    cases hi : initOp bx sx with
    | error u => rfl
    | ok s1 => by_cases hc : s1.conn <;> simp [hc, hgax]

/-- Witness for C7: two writes of sizes 3 and 2 under distinct keys give
count 2 and size 5. -/
theorem stats_accuracy_witness :
    (getStatsOp engineOK (runSets engineOK CacheState.fresh
        [{ videoId := "vid_123", variant := Variant.video, blob := blobA,
           now := 1 },
         { videoId := "vid_123", variant := Variant.thumbnail, blob := blobB,
           now := 2 }])).fst
      = Except.ok { count := 2, size := 5 } :=
  (stats_accuracy engineOK
    [{ videoId := "vid_123", variant := Variant.video, blob := blobA,
       now := 1 },
     { videoId := "vid_123", variant := Variant.thumbnail, blob := blobB,
       now := 2 }] rfl rfl rfl rfl (by decide)).1

/-- Claim C8: initialization is lazy, idempotent and single-flight: any
positive number of callers hitting `init()` before the open completes
causes exactly one `indexedDB.open` (hence at most one schema-setup pass),
every caller awaits the very same promise, and once the connection is
established (`this.db` set) further calls return immediately without
opening anything. -/
theorem init_single_flight (n : Nat) (h : 1 ≤ n) :
    (initCalls n InitModel.fresh).fst.openCalls = 1
    ∧ (initCalls n InitModel.fresh).snd = List.replicate n (some 0)
    ∧ (∀ m : InitModel, m.db = true → initCall m = (m, none)) := by
  have hstable : ∀ (k : Nat) (m : InitModel), m.db = false →
      m.initPromise = some 0 →
      initCalls k m = (m, List.replicate k (some 0)) := by
    intro k
    induction k with
    | zero => intro m _ _; rfl
    | succ k ih =>
      intro m hdb hp
      have hcall : initCall m = (m, some 0) := by
        unfold initCall
        rw [hdb, hp]
        simp
      rw [initCalls, hcall, ih m hdb hp]
      rfl
  have hfirst : initCall InitModel.fresh
      = ({ db := false, initPromise := some 0, openCalls := 1 }, some 0) :=
    rfl
  cases n with
  | zero => exact absurd h (by decide)
  | succ k =>
    rw [initCalls, hfirst,
        hstable k { db := false, initPromise := some 0, openCalls := 1 }
          rfl rfl]
    refine ⟨rfl, rfl, ?_⟩
    intro m hdb
    unfold initCall
    rw [hdb]
    simp

/-- Witness for C8 with three concurrent callers. -/
theorem init_single_flight_witness :
    (initCalls 3 InitModel.fresh).fst.openCalls = 1
    ∧ (initCalls 3 InitModel.fresh).snd = List.replicate 3 (some 0) :=
  ⟨(init_single_flight 3 (by decide)).1, (init_single_flight 3 (by decide)).2.1⟩

/-- A sample network fetcher for the witnesses. -/
def netSample : String → Variant → Blob := fun _ _ => blobB

/-- Claim C9: `downloadVideo` is cache-first: whenever the cache `get`
resolves with a blob, that blob is returned with no network fetch (and no
state change beyond `get`'s own); on a cache miss the blob is fetched
from the API, handed to `set` for write-back (persisting it whenever open
and put succeed), and the fetched blob is returned. -/
theorem downloadVideo_cache_first (b : EngineBehaviour)
    (net : String → Variant → Blob) (s : CacheState) (id : String)
    (v : Variant) (now : Nat) :
    (∀ c, (getOp b s id v).fst = Except.ok (some c) →
        downloadVideo b net s id v now
          = (Except.ok c, (getOp b s id v).snd, false))
    ∧ ((getOp b s id v).fst = Except.ok none → b.putFails = false →
        (downloadVideo b net s id v now).fst = Except.ok (net id v)
        ∧ (downloadVideo b net s id v now).snd.snd = true
        ∧ ((s.conn = true ∨ b.openFails = false) →
            getEntry (downloadVideo b net s id v now).snd.fst.store
                (getCacheKey id v)
              = some { id := getCacheKey id v, variant := v,
                       blob := net id v, cachedAt := now })) := by
  constructor
  · intro c hc
    have hpair : getOp b s id v
        = (Except.ok (some c), (getOp b s id v).snd) := by
      rw [← hc]
    unfold downloadVideo
    rw [hpair]
  · intro hnone hput
    have hpair : getOp b s id v
        = (Except.ok none, (getOp b s id v).snd) := by
      rw [← hnone]
    have hset := setOp_resolves_of_putok b ((getOp b s id v).snd) id v
      (net id v) now hput
    have hsp : setOp b ((getOp b s id v).snd) id v (net id v) now
        = (Except.ok (),
           (setOp b ((getOp b s id v).snd) id v (net id v) now).snd) := by
      rw [← hset]
    unfold downloadVideo
    rw [hpair]
    dsimp only
    rw [hsp]
    refine ⟨rfl, rfl, ?_⟩
    intro hinit
    dsimp only
    rw [getOp_snd_ok b s id v hinit,
        setOp_ok b _ id v (net id v) now (Or.inl rfl) hput]
    exact getEntry_putEntry_same s.store
      { id := getCacheKey id v, variant := v, blob := net id v,
        cachedAt := now }

/-- Witness for C9: a concrete cache hit returns the cached blob with no
fetch. -/
theorem downloadVideo_cache_first_witness :
    downloadVideo engineOK netSample stateA "vid_123" Variant.video 9
      = (Except.ok blobA, stateA, false) :=
  (downloadVideo_cache_first engineOK netSample stateA "vid_123"
    Variant.video 9).1 blobA rfl

/-- Claim C10: `has` agrees with a presence test through `get`: it
resolves `false` exactly when `get` resolves `null`, `true` exactly when
`get` resolves a blob, and it always resolves (under every engine
behaviour), because `get` does. -/
theorem has_agrees_with_get (b : EngineBehaviour) (s : CacheState)
    (id : String) (v : Variant) :
    ((getOp b s id v).fst = Except.ok none →
        (hasOp b s id v).fst = Except.ok false)
    ∧ (∀ c, (getOp b s id v).fst = Except.ok (some c) →
        (hasOp b s id v).fst = Except.ok true)
    ∧ (∃ r : Bool, (hasOp b s id v).fst = Except.ok r) := by
  refine ⟨?_, ?_, ?_⟩
  · intro h
    unfold hasOp
    rw [show getOp b s id v = (Except.ok none, (getOp b s id v).snd) from
          by rw [← h]]
    rfl
  · intro c h
    unfold hasOp
    rw [show getOp b s id v
          = (Except.ok (some c), (getOp b s id v).snd) from by rw [← h]]
    rfl
  · rcases getOp_resolves b s id v with ⟨r, hr⟩
    cases r with
    | none =>
      refine ⟨false, ?_⟩
      unfold hasOp
      rw [show getOp b s id v = (Except.ok none, (getOp b s id v).snd) from
            by rw [← hr]]
      rfl
    | some c =>
      refine ⟨true, ?_⟩
      unfold hasOp
      rw [show getOp b s id v
            = (Except.ok (some c), (getOp b s id v).snd) from by rw [← hr]]
      rfl

/-- Witness for C10: a concrete hit makes `has` resolve `true`. -/
theorem has_agrees_with_get_witness :
    (hasOp engineOK stateA "vid_123" Variant.video).fst = Except.ok true :=
  (has_agrees_with_get engineOK stateA "vid_123" Variant.video).2.1 blobA rfl
